import Mathlib

/-! The io_uring echo reactor of `main.c`.

A shallow embedding of `src/main.c`: the correlation tag (`struct conninfo`)
and its `memcpy` into and out of the 64-bit `user_data` field, the three
submission helpers `set_accept_event`, `set_recv_event`, `set_send_event`,
the body of the `for` loop that dispatches one completion, and one iteration
of the `while (1)` loop.

Machine model: `int` is a 32-bit two's complement integer stored
little-endian, `size_t` and `user_data` are 64 bits, `struct conninfo` is two
`int`s without padding (8 bytes).  Integers are `Int`/`Nat` with the wrap made
explicit where the source converts.

liburing is an external library.  Its submission queue is modelled as the
list of requests prepared since the last `io_uring_submit`, its kernel side
as the list of requests handed over and not yet completed.
-/

namespace IourPrj

/-! ## Constants and the tag -/

/-- `#define SERV_LISTEN_NUM 5`. -/
def SERV_LISTEN_NUM : Nat := 5

/-- `#define ENTRIES_LENGTH 4096`: the number of submission queue entries. -/
def ENTRIES_LENGTH : Nat := 4096

/-- First enumerator of the anonymous `enum`. -/
def READ : Int := 0

/-- Second enumerator of the anonymous `enum`. -/
def WRITE : Int := 1

/-- Third enumerator of the anonymous `enum`. -/
def ACCEPT : Int := 2

/-- `struct conninfo { int connfd; int type; }`. -/
structure conninfo where
  connfd : Int
  type : Int
deriving DecidableEq, Repr

/-- Range of a C `int` (32 bits, two's complement). -/
def isInt32 (x : Int) : Prop := -2147483648 ≤ x ∧ x < 2147483648

instance (x : Int) : Decidable (isInt32 x) :=
  inferInstanceAs (Decidable (-2147483648 ≤ x ∧ x < 2147483648))

/-! ## Object representations and `memcpy` -/

/-- The four bytes of an `int` object, lowest address first. -/
def int_bytes (x : Int) : List Nat :=
  let u := (x % 4294967296).toNat
  [u % 256, u / 256 % 256, u / 65536 % 256, u / 16777216 % 256]

/-- Value of an unsigned object from its bytes, lowest address first. -/
def unsigned_of_bytes : List Nat → Nat
  | [] => 0
  | b :: bs => b + 256 * unsigned_of_bytes bs

/-- Value of an `int` object from its four bytes. -/
def int_of_bytes (bs : List Nat) : Int :=
  let u := unsigned_of_bytes bs
  if u < 2147483648 then (u : Int) else (u : Int) - 4294967296

/-- The eight bytes of a `__u64` object, lowest address first. -/
def u64_bytes (u : Nat) : List Nat :=
  [u % 256, u / 256 % 256, u / 65536 % 256, u / 16777216 % 256,
   u / 4294967296 % 256, u / 1099511627776 % 256,
   u / 281474976710656 % 256, u / 72057594037927936 % 256]

/-- The eight bytes of a `struct conninfo` object: `connfd`, then `type`. -/
def conninfo_bytes (ci : conninfo) : List Nat :=
  int_bytes ci.connfd ++ int_bytes ci.type

/-- `memcpy(&sqe->user_data, &ci, sizeof(struct conninfo))`: the value the
64-bit field holds afterwards. -/
def store_user_data (ci : conninfo) : Nat :=
  unsigned_of_bytes (conninfo_bytes ci)

/-- `memcpy(&ci, &cqe->user_data, sizeof(ci))`: the tag read back by the loop. -/
def load_user_data (u : Nat) : conninfo :=
  let bs := u64_bytes u
  { connfd := int_of_bytes (bs.take 4), type := int_of_bytes (bs.drop 4) }

/-- Conversion of an `int` argument to a `size_t` parameter (64 bits). -/
def to_size_t (x : Int) : Nat := (x % 18446744073709551616).toNat

/-! ## Requests, completions and the state of the world -/

/-- The operation a submission queue entry was prepared for. -/
inductive Opcode where
  | accept
  | recv
  | send
deriving DecidableEq, Repr

/-- What a `io_uring_prep_*` call followed by the `memcpy` of the tag writes
into a submission queue entry.  `addr` is the buffer pointer (for an accept,
the `sockaddr` pointer), `addr2` the `socklen_t` pointer of an accept, `len`
the `size_t` length argument. -/
structure Sqe where
  opcode : Opcode
  fd : Int
  addr : Nat
  addr2 : Nat
  len : Nat
  flags : Int
  user_data : Nat
deriving DecidableEq, Repr

/-- A completion queue entry: `user_data` and the signed 32-bit `res`. -/
structure Cqe where
  user_data : Nat
  res : Int
deriving DecidableEq, Repr

/-- Pointer values passed as the `struct io_uring *` argument. -/
inductive RingPtr where
  /-- The address of the `struct io_uring ring` object of `main`. -/
  | ringObj : RingPtr
  /-- The address of a pointer variable that holds the given pointer. -/
  | addrOf : RingPtr → RingPtr
deriving DecidableEq, Repr

/-- Where the entry returned by `io_uring_get_sqe` lives. -/
inductive SqeRef where
  /-- The next free entry of the ring's submission queue. -/
  | queued
  /-- Memory that is not an entry of the ring's submission queue. -/
  | stray
deriving DecidableEq, Repr

/-- State of the program and of the runtime around it. -/
structure World where
  /-- Requests prepared on the ring and not yet submitted. -/
  sq : List Sqe
  /-- Requests submitted to the kernel and not yet completed. -/
  inflight : List Sqe
  /-- Requests written to an entry that does not belong to the ring. -/
  stray : List Sqe
  /-- The calls of `close`, in order. -/
  closed : List Int
  /-- The calls of `io_uring_cq_advance`, in order. -/
  advanced : List Nat
deriving DecidableEq, Repr

/-- The world before `main` has prepared anything. -/
def World.empty : World :=
  { sq := [], inflight := [], stray := [], closed := [], advanced := [] }

/-- `io_uring_get_sqe`: on the ring, the next free entry or `NULL` (`none`)
when all `ENTRIES_LENGTH` entries are taken.  A pointer that does not point
to the ring object gives an entry outside the ring's queue (the C behaviour
is undefined; the model only records that the ring is not involved). -/
def io_uring_get_sqe (r : RingPtr) (w : World) : Option SqeRef :=
  match r with
  | RingPtr.ringObj => if w.sq.length < ENTRIES_LENGTH then some SqeRef.queued else none
  | RingPtr.addrOf _ => some SqeRef.stray

/-- Write a prepared request through the entry pointer. -/
def write_sqe (ref : SqeRef) (s : Sqe) (w : World) : World :=
  match ref with
  | SqeRef.queued => { w with sq := w.sq ++ [s] }
  | SqeRef.stray => { w with stray := w.stray ++ [s] }

/-- `close(fd)`. -/
def close (fd : Int) (w : World) : World :=
  { w with closed := w.closed ++ [fd] }

/-- `set_accept_event(r, servfd, clnt_addr, clnt_len, flag)`.  The entry is
not checked against `NULL`: writing through `NULL` ends the program (`none`). -/
def set_accept_event (r : RingPtr) (servfd : Int) (clnt_addr clnt_len : Nat)
    (flag : Int) (w : World) : Option World :=
  match io_uring_get_sqe r w with
  | none => none
  | some sqe =>
    let ci : conninfo := { connfd := servfd, type := ACCEPT }
    some (write_sqe sqe
      { opcode := Opcode.accept, fd := servfd, addr := clnt_addr, addr2 := clnt_len,
        len := 0, flags := flag, user_data := store_user_data ci } w)

/-- `set_recv_event(ring, fd, buf, len, flags)`. -/
def set_recv_event (ring : RingPtr) (fd : Int) (buf : Nat) (len : Nat)
    (flags : Int) (w : World) : Option World :=
  match io_uring_get_sqe ring w with
  | none => none
  | some sqe =>
    let accept_info : conninfo := { connfd := fd, type := READ }
    some (write_sqe sqe
      { opcode := Opcode.recv, fd := fd, addr := buf, addr2 := 0,
        len := len, flags := flags, user_data := store_user_data accept_info } w)

/-- `set_send_event(ring, fd, buf, len, flags)`.  The source calls
`io_uring_get_sqe(&ring)` with `ring` already a `struct io_uring *`: the
argument is the address of the parameter, not the ring. -/
def set_send_event (ring : RingPtr) (fd : Int) (buf : Nat) (len : Nat)
    (flags : Int) (w : World) : Option World :=
  match io_uring_get_sqe (RingPtr.addrOf ring) w with
  | none => none
  | some sqe =>
    let ci : conninfo := { connfd := fd, type := WRITE }
    some (write_sqe sqe
      { opcode := Opcode.send, fd := fd, addr := buf, addr2 := 0,
        len := len, flags := flags, user_data := store_user_data ci } w)

/-! ## The reactor loop -/

/-- Body of the `for` loop of `main` for one completion `cqe` (the counter
`cnt` is kept by `for_loop`).  `buf` is the address of the array
`char buf[1024]` of `main`.  The `printf` of the buffer changes nothing that
is modelled. -/
def dispatch (buf : Nat) (w : World) (cqe : Cqe) : Option World :=
  let ci := load_user_data cqe.user_data
  if ci.type = ACCEPT then
    let connfd := cqe.res
    set_recv_event RingPtr.ringObj connfd buf 1024 0 w
  else if ci.type = READ then
    let bytes_read := cqe.res
    let w1 := if bytes_read = 0 then close ci.connfd w else w
    set_send_event RingPtr.ringObj ci.connfd buf (to_size_t bytes_read) 0 w1
  else if ci.type = WRITE then
    set_recv_event RingPtr.ringObj ci.connfd buf 1024 0 w
  else
    some w

theorem int_of_bytes_int_bytes (x : Int) (h : isInt32 x) :
    int_of_bytes (int_bytes x) = x := by
  unfold isInt32 at h
  simp only [int_of_bytes, int_bytes, unsigned_of_bytes]
  split_ifs with h1 <;> omega

/-- The unsigned value of the eight bytes of a tag, as arithmetic. -/
theorem store_user_data_eq (ci : conninfo) :
    store_user_data ci =
      (ci.connfd % 4294967296).toNat + 4294967296 * (ci.type % 4294967296).toNat := by
  simp only [store_user_data, conninfo_bytes, int_bytes, List.cons_append, List.nil_append,
    unsigned_of_bytes]
  omega

theorem u64_bytes_take (a b : Nat) :
    (u64_bytes (a + 4294967296 * b)).take 4 =
      [a % 256, a / 256 % 256, a / 65536 % 256, a / 16777216 % 256] := by
  simp only [u64_bytes, List.take_succ_cons, List.take_zero]
  congr 1
  · omega
  congr 1
  · omega
  congr 1
  · omega
  congr 1
  · omega

theorem u64_bytes_drop (a b : Nat) (ha : a < 4294967296) :
    (u64_bytes (a + 4294967296 * b)).drop 4 =
      [b % 256, b / 256 % 256, b / 65536 % 256, b / 16777216 % 256] := by
  simp only [u64_bytes, List.drop_succ_cons, List.drop_zero]
  congr 1
  · omega
  congr 1
  · omega
  congr 1
  · omega
  congr 1
  · omega

theorem load_store (ci : conninfo) (h1 : isInt32 ci.connfd) (h2 : isInt32 ci.type) :
    load_user_data (store_user_data ci) = ci := by
  have ha : (ci.connfd % 4294967296).toNat < 4294967296 := by omega
  have e1 := int_of_bytes_int_bytes ci.connfd h1
  have e2 := int_of_bytes_int_bytes ci.type h2
  simp only [int_bytes] at e1 e2
  cases ci with
  | mk fd ty =>
    simp only [load_user_data, store_user_data_eq, u64_bytes_take,
      u64_bytes_drop _ _ ha]
    simp only at e1 e2
    rw [e1, e2]

theorem load_store_pair (fd ty : Int) (h1 : isInt32 fd) (h2 : isInt32 ty) :
    load_user_data (store_user_data ⟨fd, ty⟩) = ⟨fd, ty⟩ :=
  load_store ⟨fd, ty⟩ h1 h2

/-! ## One completion -/

/-- The receive request `set_recv_event` prepares. -/
theorem set_recv_event_ring (fd : Int) (buf len : Nat) (flags : Int) (w : World)
    (hroom : w.sq.length < ENTRIES_LENGTH) :
    set_recv_event RingPtr.ringObj fd buf len flags w =
      some { w with sq := w.sq ++ [{ opcode := Opcode.recv, fd := fd, addr := buf, addr2 := 0,
                                     len := len, flags := flags,
                                     user_data := store_user_data ⟨fd, READ⟩ }] } := by
  simp [set_recv_event, io_uring_get_sqe, write_sqe, hroom]

theorem dispatch_write (buf : Nat) (w : World) (cqe : Cqe)
    (hk : (load_user_data cqe.user_data).type = WRITE)
    (hroom : w.sq.length < ENTRIES_LENGTH) :
    dispatch buf w cqe =
      some { w with sq := w.sq ++ [{ opcode := Opcode.recv,
                                     fd := (load_user_data cqe.user_data).connfd, addr := buf,
                                     addr2 := 0, len := 1024, flags := 0,
                                     user_data :=
                                       store_user_data ⟨(load_user_data cqe.user_data).connfd, READ⟩ }] } := by
  have h1 : ¬ (WRITE = ACCEPT) := by decide
  have h2 : ¬ (WRITE = READ) := by decide
  simp only [dispatch, hk, h1, h2, if_false, if_true]
  exact set_recv_event_ring _ _ _ _ _ hroom

/-- C2 at a failing input: a Receive completion on connection 5 with result 3.
The send is prepared with the right handle, buffer, length 3 and tag
(5, WRITE), but through `io_uring_get_sqe(&ring)`: it is written to an entry
that is not the ring's, and the ring's submission queue stays empty. -/
theorem echo_send_misses_ring :
    dispatch 300 World.empty ⟨store_user_data ⟨5, READ⟩, 3⟩ =
      some { sq := [], inflight := [],
             stray := [{ opcode := Opcode.send, fd := 5, addr := 300, addr2 := 0, len := 3,
                         flags := 0, user_data := store_user_data ⟨5, WRITE⟩ }],
             closed := [], advanced := [] } := by
  decide

/-- C5 at a failing input: a Receive completion on connection 5 with result
-104.  Nothing is closed, and a send for 5 is prepared whose length is the
result converted to `size_t`, 2^64 - 104. -/
theorem negative_receive_not_closed :
    dispatch 300 World.empty ⟨store_user_data ⟨5, READ⟩, -104⟩ =
      some { sq := [], inflight := [],
             stray := [{ opcode := Opcode.send, fd := 5, addr := 300, addr2 := 0,
                         len := 18446744073709551512, flags := 0,
                         user_data := store_user_data ⟨5, WRITE⟩ }],
             closed := [], advanced := [] } := by
  decide

/-- C6 at a failing input: an Accept completion on listener 3 with the error
result -24.  A receive is staged on the handle -24, tagged (-24, READ). -/
theorem accept_error_staged_as_receive :
    dispatch 300 World.empty ⟨store_user_data ⟨3, ACCEPT⟩, -24⟩ =
      some { sq := [{ opcode := Opcode.recv, fd := -24, addr := 300, addr2 := 0,
                      len := 1024, flags := 0,
                      user_data := store_user_data ⟨-24, READ⟩ }],
             inflight := [], stray := [], closed := [], advanced := [] } := by
  decide

/-- C7: a Send completion on connection `c`, whatever its result, stages
exactly one request on the ring, a receive on `c` into the buffer with
capacity 1024 and tag (c, READ); nothing else changes, so nothing is closed. -/
theorem send_completion_rearms_receive (buf : Nat) (w : World) (c r : Int)
    (hc : isInt32 c) (hroom : w.sq.length < ENTRIES_LENGTH) :
    dispatch buf w ⟨store_user_data ⟨c, WRITE⟩, r⟩ =
        some { w with sq := w.sq ++ [{ opcode := Opcode.recv, fd := c, addr := buf,
                                       addr2 := 0, len := 1024, flags := 0,
                                       user_data := store_user_data ⟨c, READ⟩ }] } ∧
      load_user_data (store_user_data ⟨c, READ⟩) = ⟨c, READ⟩ := by
  have hs : load_user_data (store_user_data ⟨c, WRITE⟩) = ⟨c, WRITE⟩ :=
    load_store_pair c WRITE hc (by decide)
  refine ⟨?_, load_store_pair c READ hc (by decide)⟩
  rw [dispatch_write buf w ⟨store_user_data ⟨c, WRITE⟩, r⟩ (by simp [hs]) hroom]
  simp [hs]

theorem send_completion_rearms_receive_witness :
    isInt32 5 ∧ World.empty.sq.length < ENTRIES_LENGTH ∧
      dispatch 300 World.empty ⟨store_user_data ⟨5, WRITE⟩, -32⟩ =
        some { World.empty with
          sq := World.empty.sq ++ [{ opcode := Opcode.recv, fd := 5, addr := 300,
                                     addr2 := 0, len := 1024, flags := 0,
                                     user_data := store_user_data ⟨5, READ⟩ }] } :=
  ⟨by decide, by decide,
   (send_completion_rearms_receive 300 World.empty 5 (-32) (by decide) (by decide)).1⟩


/-- C10: for a 32-bit handle `fd` and a 32-bit kind `ty`, copying the eight
bytes of the tag (fd, ty) into `user_data` and copying them back gives
(fd, ty) again; the stored value fits 64 bits; two tags with the same stored
value are equal; and the request written by `set_accept_event`,
`set_recv_event`, `set_send_event` for `fd` carries the stored value of
(fd, ACCEPT), (fd, READ), (fd, WRITE), which decodes to that tag. -/
theorem tag_round_trip (fd ty : Int) (hfd : isInt32 fd) (hty : isInt32 ty) :
    load_user_data (store_user_data ⟨fd, ty⟩) = ⟨fd, ty⟩ ∧
    store_user_data ⟨fd, ty⟩ < 18446744073709551616 ∧
    (∀ fd2 ty2 : Int, isInt32 fd2 → isInt32 ty2 →
      store_user_data ⟨fd2, ty2⟩ = store_user_data ⟨fd, ty⟩ → fd2 = fd ∧ ty2 = ty) ∧
    (∀ r a l f w w', set_accept_event r fd a l f w = some w' →
      ∃ s, (w'.sq = w.sq ++ [s] ∨ w'.stray = w.stray ++ [s]) ∧
        s.user_data = store_user_data ⟨fd, ACCEPT⟩ ∧
        load_user_data s.user_data = ⟨fd, ACCEPT⟩) ∧
    (∀ r b n f w w', set_recv_event r fd b n f w = some w' →
      ∃ s, (w'.sq = w.sq ++ [s] ∨ w'.stray = w.stray ++ [s]) ∧
        s.user_data = store_user_data ⟨fd, READ⟩ ∧
        load_user_data s.user_data = ⟨fd, READ⟩) ∧
    (∀ r b n f w w', set_send_event r fd b n f w = some w' →
      ∃ s, (w'.sq = w.sq ++ [s] ∨ w'.stray = w.stray ++ [s]) ∧
        s.user_data = store_user_data ⟨fd, WRITE⟩ ∧
        load_user_data s.user_data = ⟨fd, WRITE⟩) := by
  refine ⟨load_store_pair fd ty hfd hty, ?_, ?_, ?_, ?_, ?_⟩
  · rw [store_user_data_eq]
    simp only
    omega
  · intro fd2 ty2 h1 h2 he
    have e := congrArg load_user_data he
    rw [load_store_pair fd2 ty2 h1 h2, load_store_pair fd ty hfd hty] at e
    exact ⟨congrArg conninfo.connfd e, congrArg conninfo.type e⟩
  · intro r a l f w w' h
    simp only [set_accept_event] at h
    cases hg : io_uring_get_sqe r w with
    | none => simp [hg] at h
    | some ref =>
      simp only [hg, Option.some.injEq] at h
      subst h
      refine ⟨{ opcode := Opcode.accept, fd := fd, addr := a, addr2 := l, len := 0,
                flags := f, user_data := store_user_data ⟨fd, ACCEPT⟩ }, ?_, rfl,
        load_store_pair fd ACCEPT hfd (by decide)⟩
      cases ref
      · exact Or.inl rfl
      · exact Or.inr rfl
  · intro r b n f w w' h
    simp only [set_recv_event] at h
    cases hg : io_uring_get_sqe r w with
    | none => simp [hg] at h
    | some ref =>
      simp only [hg, Option.some.injEq] at h
      subst h
      refine ⟨{ opcode := Opcode.recv, fd := fd, addr := b, addr2 := 0, len := n,
                flags := f, user_data := store_user_data ⟨fd, READ⟩ }, ?_, rfl,
        load_store_pair fd READ hfd (by decide)⟩
      cases ref
      · exact Or.inl rfl
      · exact Or.inr rfl
  · intro r b n f w w' h
    simp only [set_send_event] at h
    cases hg : io_uring_get_sqe (RingPtr.addrOf r) w with
    | none => simp [hg] at h
    | some ref =>
      simp only [hg, Option.some.injEq] at h
      subst h
      refine ⟨{ opcode := Opcode.send, fd := fd, addr := b, addr2 := 0, len := n,
                flags := f, user_data := store_user_data ⟨fd, WRITE⟩ }, ?_, rfl,
        load_store_pair fd WRITE hfd (by decide)⟩
      cases ref
      · exact Or.inl rfl
      · exact Or.inr rfl

theorem tag_round_trip_witness :
    isInt32 (-2147483648) ∧ isInt32 (-1) ∧
      load_user_data (store_user_data ⟨-2147483648, -1⟩) = ⟨-2147483648, -1⟩ :=
  ⟨by decide, by decide, (tag_round_trip (-2147483648) (-1) (by decide) (by decide)).1⟩

end IourPrj
